import Mathlib

/-!
# Verification of the PirateBay source adapter

Shallow embedding of the repository's source adapter
(`src/shiru/sources/piratebaysrc/index.js`, canonical defensive variant, and
`src/unnamed/part_000`, the variant carrying the media-type query switch).

Conventions of the embedding:
* JavaScript values delivered by JSON (plus `undefined`) are modelled by
  `JSValue`; machine floats are idealised as exact rationals `ℚ`; `NaN` is
  modelled explicitly where it can arise (`JSNum`, `Option` results).
* A thrown (and possibly caught) exception is modelled by `Option`/`Except`
  with `none`/`.error ()` standing for the raised error.
* The external `fetch` collaborator, the host clock, and the
  implementation-defined parts of the host `new Date(string)` parser are
  parameters (oracles); the ECMA-262-specified date-only ISO form
  "YYYY-MM-DD" is modelled concretely.
* Character classes (`\w`, `\s`, regex `.`) are modelled over their ASCII
  portion; none of the verified properties exercise the non-ASCII part.
* `index.js` line 95 contains a stray backslash before `?.[1]` that would be
  a JavaScript syntax error; the two sibling variants carry the identical
  line without it, so the embedding models the evident intent `?.[1]`.
-/

namespace Seadex

/-- A JavaScript value as it can appear in this program: JSON data plus
`undefined` (absent object fields). Numbers are idealised as exact
rationals. -/
inductive JSValue where
  | undefined : JSValue
  | null : JSValue
  | bool : Bool → JSValue
  | num : ℚ → JSValue
  | str : String → JSValue
  | arr : List JSValue → JSValue
  | obj : List (String × JSValue) → JSValue

/-- JavaScript truthiness of a `JSValue`. -/
def truthy : JSValue → Bool
  | .undefined => false
  | .null => false
  | .bool b => b
  | .num q => decide (q ≠ 0)
  | .str s => decide (s ≠ "")
  | .arr _ => true
  | .obj _ => true

/-- `a || b` in JavaScript. -/
def jsOr (a b : JSValue) : JSValue := if truthy a then a else b

/-- Lookup of an own property in an object modelled as an association list;
a missing key yields `undefined`. -/
def lookupField : List (String × JSValue) → String → JSValue
  | [], _ => .undefined
  | (k2, v) :: rest, k => if k2 = k then v else lookupField rest k

/-- Property access `v.k`. `none` models the `TypeError` thrown when reading
a property of `null`/`undefined`; primitives yield `undefined` for the field
names used by this program. -/
def getField : JSValue → String → Option JSValue
  | .undefined, _ => none
  | .null, _ => none
  | .obj fs, k => some (lookupField fs k)
  | _, _ => some .undefined

/-- ASCII whitespace recognised by the embedding (the ASCII part of the
JavaScript `\s` class / `String.prototype.trim`). -/
def isJsSpace (c : Char) : Bool :=
  c = ' ' || c = '\t' || c = '\n' || c = '\r' || c = Char.ofNat 11 || c = Char.ofNat 12

/-- JavaScript line terminators (the characters regex `.` does not match). -/
def isLineTerm (c : Char) : Bool := c = '\n' || c = '\r'

/-- ASCII letter, the regex class `[A-Za-z]`. -/
def isAsciiLetter (c : Char) : Bool :=
  (decide ('A' ≤ c) && decide (c ≤ 'Z')) || (decide ('a' ≤ c) && decide (c ≤ 'z'))

/-- The regex class `[A-Fa-f0-9]` (a hexadecimal digit of either case). -/
def isHexDigit (c : Char) : Bool :=
  c.isDigit || (decide ('a' ≤ c) && decide (c ≤ 'f')) || (decide ('A' ≤ c) && decide (c ≤ 'F'))

/-- The regex class `\w` (word character): ASCII letter, digit or underscore. -/
def isWordChar (c : Char) : Bool := isAsciiLetter c || c.isDigit || c = '_'

/-- The regex class `[\d.]` (digit or dot). -/
def isDigitOrDot (c : Char) : Bool := c.isDigit || c = '.'

/-- `String.prototype.trim` on the character list. -/
def jsTrimList (cs : List Char) : List Char :=
  ((cs.dropWhile isJsSpace).reverse.dropWhile isJsSpace).reverse

/-- `String.prototype.trim`. -/
def jsTrim (s : String) : String := ⟨jsTrimList s.data⟩

/-- Numeric value of a list of decimal digits (most significant first). -/
def digitsVal (cs : List Char) : ℕ := cs.foldl (fun a c => 10 * a + (c.toNat - 48)) 0

/-- Numeric value of one hexadecimal digit of either case. -/
def hexDigitVal (c : Char) : ℕ :=
  if c.isDigit then c.toNat - 48
  else if decide ('a' ≤ c) && decide (c ≤ 'f') then c.toNat - 87
  else c.toNat - 55

/-- Numeric value of a list of hexadecimal digits (most significant first). -/
def hexVal (cs : List Char) : ℕ := cs.foldl (fun a c => 16 * a + hexDigitVal c) 0

/-- `title.replace(/[^\w\s-]/g, " ")` keeps exactly these characters. -/
def keepChar (c : Char) : Bool := isWordChar c || isJsSpace c || c = '-'

/-- `title.replace(/[^\w\s-]/g, " ").trim()` — the sanitization step shared by
every `_search` variant (index.js line 55, part_000 line 43). -/
def sanitizeTitle (title : String) : String :=
  jsTrim ⟨title.data.map (fun c => if keepChar c then c else ' ')⟩

/-- `n.toString().padStart(2, "0")`. -/
def padTwo (n : ℕ) : String :=
  let s := toString n
  if s.length < 2 then "0" ++ s else s

/-- A JavaScript number: finite (idealised exact) value, `NaN`, or an
infinity. -/
inductive JSNum where
  | fin : ℚ → JSNum
  | nan : JSNum
  | inf : JSNum
  | ninf : JSNum
  deriving DecidableEq

/-- Negation of a JavaScript number. -/
def jsNeg : JSNum → JSNum
  | .fin q => .fin (-q)
  | .nan => .nan
  | .inf => .ninf
  | .ninf => .inf

/-- Exponent part of a decimal literal: optional sign then one or more
digits, consuming the whole list. -/
def parseExpPart (cs : List Char) : Option ℤ :=
  match cs with
  | '+' :: rest => if rest ≠ [] ∧ rest.all Char.isDigit then some (digitsVal rest) else none
  | '-' :: rest => if rest ≠ [] ∧ rest.all Char.isDigit then some (-(digitsVal rest : ℤ)) else none
  | _ => if cs ≠ [] ∧ cs.all Char.isDigit then some (digitsVal cs) else none

/-- Scale a rational by a signed power of ten. -/
def scalePow10 (q : ℚ) (k : ℤ) : ℚ :=
  if 0 ≤ k then q * (10 : ℚ) ^ k.toNat else q / (10 : ℚ) ^ (-k).toNat

/-- An unsigned ECMA decimal literal `digits [. digits] [(e|E) exp]`,
consuming the whole list; `none` when the list is not of that form. -/
def parseDecimalCore (cs : List Char) : Option ℚ :=
  let d1 := cs.takeWhile Char.isDigit
  let r1 := cs.dropWhile Char.isDigit
  match r1 with
  | [] => if d1.isEmpty then none else some (digitsVal d1)
  | '.' :: r2 =>
    let d2 := r2.takeWhile Char.isDigit
    let r3 := r2.dropWhile Char.isDigit
    if d1.isEmpty && d2.isEmpty then none
    else
      let base : ℚ := (digitsVal d1 : ℚ) + (digitsVal d2 : ℚ) / (10 : ℚ) ^ d2.length
      match r3 with
      | [] => some base
      | e :: r4 =>
        if e = 'e' ∨ e = 'E' then (parseExpPart r4).map (scalePow10 base) else none
  | e :: r4 =>
    if (e = 'e' ∨ e = 'E') ∧ ¬ d1.isEmpty then
      (parseExpPart r4).map (scalePow10 (digitsVal d1 : ℚ))
    else none

/-- The unsigned part of an ECMA `StrNumericLiteral`: `Infinity` or a decimal
literal. -/
def strUnsignedNum (cs : List Char) : JSNum :=
  if cs = "Infinity".data then .inf
  else match parseDecimalCore cs with
    | some q => .fin q
    | none => .nan

/-- An ECMA `StrNumericLiteral` body: hex/binary/octal literal, or an
optionally signed decimal/`Infinity` literal. -/
def strNumericLiteral (cs : List Char) : JSNum :=
  match cs with
  | '0' :: c :: rest =>
    if c = 'x' ∨ c = 'X' then
      if rest ≠ [] ∧ rest.all isHexDigit then .fin (hexVal rest) else .nan
    else if c = 'b' ∨ c = 'B' then
      if rest ≠ [] ∧ rest.all (fun d => d = '0' ∨ d = '1') then
        .fin (rest.foldl (fun a d => 2 * a + (d.toNat - 48)) 0 : ℕ) else .nan
    else if c = 'o' ∨ c = 'O' then
      if rest ≠ [] ∧ rest.all (fun d => decide ('0' ≤ d) && decide (d ≤ '7')) then
        .fin (rest.foldl (fun a d => 8 * a + (d.toNat - 48)) 0 : ℕ) else .nan
    else strUnsignedNum cs
  | '+' :: rest => strUnsignedNum rest
  | '-' :: rest => jsNeg (strUnsignedNum rest)
  | _ => strUnsignedNum cs

/-- ECMA `StringToNumber`: trim whitespace, empty means `0`, otherwise parse
the numeric literal. -/
def jsStringToNumber (s : String) : JSNum :=
  let t := jsTrimList s.data
  if t = [] then .fin 0 else strNumericLiteral t

/-- Decimal rendering of a rational whose denominator divides a power of ten
(the only rationals JSON can deliver); `fuel` bounds the fraction length. -/
def ratFracDigits (fuel : ℕ) (q : ℚ) : List Char :=
  match fuel with
  | 0 => []
  | fuel + 1 =>
    if q = 0 then []
    else
      let q10 := q * 10
      let d := q10.floor.toNat
      Char.ofNat (48 + d) :: ratFracDigits fuel (q10 - q10.floor)

/-- `Number.prototype.toString` for the JSON-representable rationals. -/
def jsNumToString (q : ℚ) : String :=
  let sign := if q < 0 then "-" else ""
  let a := |q|
  let ip := a.floor
  let fp := a - ip
  if fp = 0 then sign ++ toString ip
  else sign ++ toString ip ++ "." ++ (⟨ratFracDigits 40 fp⟩ : String)

mutual
/-- `ToString` of a `JSValue` as used by `ToPrimitive` on JSON data
(arrays stringify with `Array.prototype.join`). -/
def jsValueToString : JSValue → String
  | .undefined => "undefined"
  | .null => "null"
  | .bool b => if b then "true" else "false"
  | .num q => jsNumToString q
  | .str s => s
  | .arr l => jsListToString l
  | .obj _ => "[object Object]"

/-- `Array.prototype.join(",")` where `null`/`undefined` elements render
empty. -/
def jsListToString : List JSValue → String
  | [] => ""
  | [x] => jsElemToString x
  | x :: y :: rest => jsElemToString x ++ "," ++ jsListToString (y :: rest)

/-- One array element under `join`: `null`/`undefined` render empty. -/
def jsElemToString : JSValue → String
  | .undefined => ""
  | .null => ""
  | v => jsValueToString v
end

/-- ECMA `ToNumber` on the values reachable in this program. -/
def jsToNumber : JSValue → JSNum
  | .undefined => .nan
  | .null => .fin 0
  | .bool b => .fin (if b then 1 else 0)
  | .num q => .fin q
  | .str s => jsStringToNumber s
  | .arr l => jsStringToNumber (jsListToString l)
  | .obj _ => .nan

/-! ## SizeParser (`_parseSize`, index.js lines 122-151) -/

/-- `parseFloat` restricted to the strings the capture group `([\d.]+)` can
deliver (digits and dots): longest prefix `digits [. digits]`, `none` when no
digit is found (`NaN`). -/
def parseFloatCapture (cs : List Char) : Option ℚ :=
  let d1 := cs.takeWhile Char.isDigit
  let r1 := cs.dropWhile Char.isDigit
  match r1 with
  | '.' :: r2 =>
    let d2 := r2.takeWhile Char.isDigit
    if d1.isEmpty && d2.isEmpty then none
    else some ((digitsVal d1 : ℚ) + (digitsVal d2 : ℚ) / (10 : ℚ) ^ d2.length)
  | _ => if d1.isEmpty then none else some ((digitsVal d1 : ℚ))

/-- The match of `/^([\d.]+)\s*([A-Za-z]+)$/` against an (already trimmed)
string: since the three character classes are disjoint the decomposition is
unique — maximal digit/dot prefix, maximal whitespace run, and the rest must
be one or more letters reaching the end. -/
def sizeMatch (cs : List Char) : Option (List Char × List Char) :=
  let numPart := cs.takeWhile isDigitOrDot
  let r1 := cs.dropWhile isDigitOrDot
  let unitPart := r1.dropWhile isJsSpace
  if !numPart.isEmpty && !unitPart.isEmpty && unitPart.all isAsciiLetter
  then some (numPart, unitPart) else none

/-- The value found by the property read `units[unit]`. -/
inductive UnitsVal where
  | qv : ℚ → UnitsVal
  | protoFn : UnitsVal
  deriving DecidableEq

/-- `units[unit]`: the nine own properties of the `units` object literal,
plus the `Object.prototype` methods the literal inherits — the ones whose
names consist solely of ASCII letters are reachable through the regex capture
and yield a (truthy) function value. `none` is `undefined`. -/
def unitsGet (u : String) : Option UnitsVal :=
  if u = "B" then some (.qv 1)
  else if u = "KiB" then some (.qv 1024)
  else if u = "MiB" then some (.qv (1024 ^ 2))
  else if u = "GiB" then some (.qv (1024 ^ 3))
  else if u = "TiB" then some (.qv (1024 ^ 4))
  else if u = "KB" then some (.qv 1000)
  else if u = "MB" then some (.qv (1000 ^ 2))
  else if u = "GB" then some (.qv (1000 ^ 3))
  else if u = "TB" then some (.qv (1000 ^ 4))
  else if u = "constructor" ∨ u = "hasOwnProperty" ∨ u = "isPrototypeOf"
       ∨ u = "propertyIsEnumerable" ∨ u = "toLocaleString" ∨ u = "toString"
       ∨ u = "valueOf" then some .protoFn
  else none

/-- `_parseSize` (index.js lines 122-151). Result `some z` is the number
`z`; `none` is `NaN` (the result of `value * multiplier` when the inherited
`Object.prototype` method is the multiplier). The surrounding `try` never
catches anything: no step can throw. -/
def parseSize (sizeStr : JSValue) : Option ℤ :=
  match sizeStr with
  | .str s =>
    if s = "" then some 0
    else match sizeMatch (jsTrimList s.data) with
      | none => some 0
      | some (numCs, unitCs) =>
        match parseFloatCapture numCs with
        | none => some 0
        | some value =>
          match (unitsGet ⟨unitCs⟩).getD (.qv 1) with
          | .qv m => some ((value * m).floor)
          | .protoFn => none
  | _ => some 0

/-! ## DateParser (`_parseDate`, index.js lines 159-190) -/

/-- Leap year in the proleptic Gregorian calendar. -/
def isLeapYear (y : ℤ) : Bool := (y % 4 == 0 && y % 100 != 0) || y % 400 == 0

/-- Days in a month. -/
def daysInMonth (y : ℤ) (m : ℕ) : ℕ :=
  if m = 1 ∨ m = 3 ∨ m = 5 ∨ m = 7 ∨ m = 8 ∨ m = 10 ∨ m = 12 then 31
  else if m = 4 ∨ m = 6 ∨ m = 9 ∨ m = 11 then 30
  else if isLeapYear y then 29 else 28

/-- Days from the Unix epoch to the civil date y-m-d (proleptic Gregorian),
the standard civil-from-days computation with floor division. -/
def daysFromCivil (y : ℤ) (m d : ℕ) : ℤ :=
  let y2 : ℤ := if m ≤ 2 then y - 1 else y
  let era : ℤ := y2 / 400
  let yoe : ℤ := y2 - era * 400
  let mp : ℤ := ((m : ℤ) + 9) % 12
  let doy : ℤ := (153 * mp + 2) / 5 + (d : ℤ) - 1
  let doe : ℤ := yoe * 365 + yoe / 4 - yoe / 100 + doy
  era * 146097 + doe - 719468

/-- `new Date("YYYY-MM-DD")` on the date-only ISO form, fully specified by
ECMA-262: UTC midnight of that civil date in milliseconds, invalid (`none`)
when month or day is out of range. -/
def isoDateOnly (y : ℤ) (m d : ℕ) : Option ℤ :=
  if 1 ≤ m ∧ m ≤ 12 ∧ 1 ≤ d ∧ d ≤ daysInMonth y m then
    some (86400000 * daysFromCivil y m d)
  else none

/-- The match of `/^(\d{2})-(\d{2})\s+(.+)$/` against an (already trimmed)
string: two digits, a hyphen, two digits, at least one whitespace character,
then a nonempty remainder. Since `.` matches no line terminator, a line
terminator after the maximal whitespace run makes every split fail. -/
def dateShape (cs : List Char) : Option (List Char × List Char × List Char) :=
  match cs with
  | m1 :: m2 :: '-' :: d1 :: d2 :: rest =>
    if m1.isDigit && m2.isDigit && d1.isDigit && d2.isDigit then
      let ws := rest.takeWhile isJsSpace
      let r := rest.dropWhile isJsSpace
      if !ws.isEmpty && !r.isEmpty && !(r.any isLineTerm) then some ([m1, m2], [d1, d2], r)
      else none
    else none
  | _ => none

/-- `_parseDate` (index.js lines 159-190). `now` and `currentYear` model the
clock at call time; `tparse` models the host `new Date` on the constructed
"YYYY-MM-DDTHH:MM"-style local-time strings and `gen` the
implementation-defined generic `new Date(string)` fallback (`none` is an
invalid date). Total: nothing inside the source `try` can throw. -/
def parseDate (now : ℤ) (currentYear : ℕ) (tparse gen : String → Option ℤ)
    (dateStr : JSValue) : ℤ :=
  match dateStr with
  | .str s =>
    if s = "" then now
    else
      let fallback := (gen s).getD now
      match dateShape (jsTrimList s.data) with
      | some (mm, dd, rest) =>
        if rest.length = 4 ∧ rest.all Char.isDigit then
          match isoDateOnly (digitsVal rest) (digitsVal mm) (digitsVal dd) with
          | some t => t
          | none => fallback
        else
          match tparse (toString currentYear ++ "-" ++ (⟨mm⟩ : String) ++ "-"
              ++ (⟨dd⟩ : String) ++ "T" ++ (⟨rest⟩ : String)) with
          | some t => t
          | none => fallback
      | none => fallback
  | _ => now

/-! ## Info-hash extraction (index.js line 95) -/

/-- Does the list start with `t`, `i`, `h`, `:`? (The tail of the literal
`btih:` once the leading `b` has been matched.) -/
def tihColonStart : List Char → Bool
  | 't' :: 'i' :: 'h' :: ':' :: _ => true
  | _ => false

/-- First match of `/btih:([A-Fa-f0-9]+)/`: scan left to right; at the first
position where the literal `btih:` is followed by at least one hexadecimal
digit, capture the maximal hexadecimal run. -/
def btihCapture : List Char → Option (List Char)
  | [] => none
  | c :: rest =>
    if c = 'b' ∧ tihColonStart rest then
      let run := (rest.drop 4).takeWhile isHexDigit
      if run.isEmpty then btihCapture rest else some run
    else btihCapture rest

/-- `item.Magnet?.match(/btih:([A-Fa-f0-9]+)/)?.[1] || ""` — `none` models
the `TypeError` thrown by calling `.match` on a non-string, non-nullish
value. -/
def magnetHash : JSValue → Option String
  | .undefined => some ""
  | .null => some ""
  | .str s => some (((btihCapture s.data).map fun cs => (⟨cs⟩ : String)).getD "")
  | _ => none

/-! ## ResultNormalizer and SourceAdapter (index.js) -/

/-- The record built per raw item by index.js `_search` (lines 92-103).
`title` and `link` carry the raw `Name`/`Magnet` values through unchanged
(so they can be `undefined`); `seeders`/`leechers` are JavaScript numbers
(possibly `NaN`); `size` is `none` exactly when `_parseSize` produced
`NaN`. -/
structure TorrentResult where
  title : JSValue
  link : JSValue
  hash : String
  seeders : JSNum
  leechers : JSNum
  downloads : ℚ
  size : Option ℤ
  date : ℤ
  accuracy : String
  type : String

/-- The body of `data.map(item => { try { return {...} } catch { return
null } })` in index.js `_search` (lines 90-107): `none` models a thrown and
caught exception (reading a property of a nullish item, or calling `.match`
on a non-string magnet). -/
def buildItem (now : ℤ) (currentYear : ℕ) (tparse gen : String → Option ℤ)
    (item : JSValue) : Option TorrentResult := do
  let name ← getField item "Name"
  let magnet ← getField item "Magnet"
  let hash ← magnetHash magnet
  let seedersRaw ← getField item "Seeders"
  let leechersRaw ← getField item "Leechers"
  let sizeRaw ← getField item "Size"
  let dateRaw ← getField item "DateUploaded"
  some { title := name
         link := magnet
         hash := hash
         seeders := jsToNumber (jsOr seedersRaw (.num 0))
         leechers := jsToNumber (jsOr leechersRaw (.num 0))
         downloads := 0
         size := parseSize sizeRaw
         date := parseDate now currentYear tparse gen dateRaw
         accuracy := "medium"
         type := "alt" }

/-- `.map(...).filter(item => item !== null).slice(0, 30)` (index.js line
108): failed items are dropped, survivors keep their order, capped at the
first 30. -/
def normalize (now : ℤ) (currentYear : ℕ) (tparse gen : String → Option ℤ)
    (data : List JSValue) : List TorrentResult :=
  ((data.map (buildItem now currentYear tparse gen)).filterMap id).take 30

/-- The outcome of one `fetch` round-trip: a rejected promise, or a response
with its `ok` flag and the outcome of `res.json()` (`.error` when the body
is not valid JSON). -/
inductive FetchOutcome where
  | netErr : FetchOutcome
  | resp : Bool → Except Unit JSValue → FetchOutcome

/-- Uppercase hexadecimal digit. -/
def hexDigitChar (n : ℕ) : Char := if n < 10 then Char.ofNat (48 + n) else Char.ofNat (55 + n)

/-- Characters `encodeURIComponent` leaves unescaped. -/
def isUriUnreserved (c : Char) : Bool :=
  isAsciiLetter c || c.isDigit || c = '-' || c = '_' || c = '.' || c = '!'
  || c = '~' || c = '*' || c = Char.ofNat 39 || c = '(' || c = ')'

/-- UTF-8 bytes of a code point. -/
def utf8Bytes (n : ℕ) : List ℕ :=
  if n < 128 then [n]
  else if n < 2048 then [192 + n / 64, 128 + n % 64]
  else if n < 65536 then [224 + n / 4096, 128 + (n / 64) % 64, 128 + n % 64]
  else [240 + n / 262144, 128 + (n / 4096) % 64, 128 + (n / 64) % 64, 128 + n % 64]

/-- `encodeURIComponent`. -/
def encodeURIComponent (s : String) : String :=
  ⟨s.data.foldr (fun c acc =>
    if isUriUnreserved c then c :: acc
    else (utf8Bytes c.toNat).foldr
      (fun b a => '%' :: hexDigitChar (b / 16) :: hexDigitChar (b % 16) :: a) acc) []⟩

/-- The fixed endpoint prefix (`base` class field). -/
def base : String := "https://torrent-search-api-livid.vercel.app/api/piratebay/"

/-- `_search` from index.js (lines 53-115). Every transport-level failure —
a rejected `fetch`, a non-ok status, a `res.json()` failure, a non-array
body — is thrown, and the outer `catch` rethrows it, so those are `.error`
results. -/
def search (fetch : String → FetchOutcome) (now : ℤ) (currentYear : ℕ)
    (tparse gen : String → Option ℤ) (title : String) (episode : ℕ) :
    Except Unit (List TorrentResult) :=
  let query0 := sanitizeTitle title
  let query := if episode ≠ 0 then query0 ++ " " ++ padTwo episode else query0
  match fetch (base ++ encodeURIComponent query) with
  | .netErr => .error ()
  | .resp ok body =>
    if ok then
      match body with
      | .error _ => .error ()
      | .ok data =>
        match data with
        | .arr items => .ok (normalize now currentYear tparse gen items)
        | _ => .error ()
    else .error ()

/-- `single` from index.js (lines 15-24): `!titles?.length` short-circuits
to `[]`; otherwise `_search(titles[0], episode)`, whose errors propagate
uncaught. -/
def single (fetch : String → FetchOutcome) (now : ℤ) (currentYear : ℕ)
    (tparse gen : String → Option ℤ) (titles : Option (List String)) (episode : ℕ) :
    Except Unit (List TorrentResult) :=
  match titles with
  | none => .ok []
  | some [] => .ok []
  | some (t :: _) => search fetch now currentYear tparse gen t episode

/-- `batch` from index.js (lines 30-34): delegates to `single`. -/
def batch (fetch : String → FetchOutcome) (now : ℤ) (currentYear : ℕ)
    (tparse gen : String → Option ℤ) (titles : Option (List String)) (episode : ℕ) :
    Except Unit (List TorrentResult) :=
  single fetch now currentYear tparse gen titles episode

/-- `movie` from index.js (lines 40-45): delegates to `single`. -/
def movie (fetch : String → FetchOutcome) (now : ℤ) (currentYear : ℕ)
    (tparse gen : String → Option ℤ) (titles : Option (List String)) (episode : ℕ) :
    Except Unit (List TorrentResult) :=
  single fetch now currentYear tparse gen titles episode

/-! ## The `src/unnamed/part_000` variant (media-type query switch) -/

namespace V2

/-- The query construction of part_000 `_search` (lines 43-66): sanitize the
title, then dispatch on `mediaType`. Absent optional numeric fields are
modelled by `0` (JavaScript truthiness: `if (episode)` etc.); an absent or
unrecognized `mediaType` falls into the `anime`/default case. -/
def buildQuery (title : String) (episode season : ℕ) (mediaType : String) (year : ℤ) :
    String :=
  let query := sanitizeTitle title
  if mediaType = "movie" then
    if year ≠ 0 then query ++ " " ++ toString year else query
  else if mediaType = "tv" then
    if season ≠ 0 ∧ episode ≠ 0 then
      query ++ " S" ++ padTwo season ++ "E" ++ padTwo episode
    else if episode ≠ 0 then query ++ " S01E" ++ padTwo episode
    else query
  else
    if episode ≠ 0 then query ++ " " ++ padTwo episode else query

/-- Truncation toward zero, `ToIntegerOrInfinity` on a finite value. -/
def ratTrunc (q : ℚ) : ℤ := if q < 0 then -((-q).floor) else q.floor

/-- `new Date(value)` for one argument of any type (part_000 line 83):
strings go through the host parser modelled by `gen`; numbers are clipped
time values; objects stringify first. `none` is an Invalid Date. -/
def newDate (gen : String → Option ℤ) : JSValue → Option ℤ
  | .undefined => none
  | .null => some 0
  | .bool b => some (if b then 1 else 0)
  | .num q => if |q| ≤ 8640000000000000 then some (ratTrunc q) else none
  | .str s => gen s
  | .arr l => gen (jsListToString l)
  | .obj _ => gen "[object Object]"

/-- The record built per raw item by part_000 `_search` (lines 75-86):
`downloads` is coerced from the raw field, `size` is the literal `0`, and
`date` is `new Date(item.DateUploaded)` (possibly an Invalid Date). -/
structure TorrentResult where
  title : JSValue
  link : JSValue
  hash : String
  seeders : JSNum
  leechers : JSNum
  downloads : JSNum
  size : ℚ
  date : Option ℤ
  accuracy : String
  type : String

/-- The body of `data.map(item => ({...}))` in part_000 (lines 75-86). There
is no per-item `try`/`catch`: `none` here is an exception that propagates
out of `_search`. -/
def buildItem (gen : String → Option ℤ) (item : JSValue) : Option TorrentResult := do
  let name ← getField item "Name"
  let magnet ← getField item "Magnet"
  let hash ← magnetHash magnet
  let seedersRaw ← getField item "Seeders"
  let leechersRaw ← getField item "Leechers"
  let downloadsRaw ← getField item "Downloads"
  let dateRaw ← getField item "DateUploaded"
  some { title := name
         link := magnet
         hash := hash
         seeders := jsToNumber (jsOr seedersRaw (.num 0))
         leechers := jsToNumber (jsOr leechersRaw (.num 0))
         downloads := jsToNumber (jsOr downloadsRaw (.num 0))
         size := 0
         date := newDate gen dateRaw
         accuracy := "medium"
         type := "alt" }

/-- `_search` from part_000 (lines 42-87): a non-ok status and a valid-JSON
non-array body return `[]`; but a rejected `fetch`, a `res.json()` failure,
and an exception inside the unprotected `map` all propagate (`.error`). -/
def search (fetch : String → FetchOutcome) (gen : String → Option ℤ)
    (title : String) (episode season : ℕ) (mediaType : String) (year : ℤ) :
    Except Unit (List TorrentResult) :=
  let query := buildQuery title episode season mediaType year
  match fetch (base ++ encodeURIComponent query) with
  | .netErr => .error ()
  | .resp ok body =>
    if ok then
      match body with
      | .error _ => .error ()
      | .ok data =>
        match data with
        | .arr items =>
          match items.mapM (buildItem gen) with
          | some rs => .ok rs
          | none => .error ()
        | _ => .ok []
    else .ok []

/-- `single` from part_000 (lines 15-18). -/
def single (fetch : String → FetchOutcome) (gen : String → Option ℤ)
    (titles : Option (List String)) (episode season : ℕ) (mediaType : String)
    (year : ℤ) : Except Unit (List TorrentResult) :=
  match titles with
  | none => .ok []
  | some [] => .ok []
  | some (t :: _) => search fetch gen t episode season mediaType year

/-- `batch` from part_000 (lines 24-26): delegates to `single`. -/
def batch (fetch : String → FetchOutcome) (gen : String → Option ℤ)
    (titles : Option (List String)) (episode season : ℕ) (mediaType : String)
    (year : ℤ) : Except Unit (List TorrentResult) :=
  single fetch gen titles episode season mediaType year

/-- `movie` from part_000 (lines 32-34): delegates to `single`. -/
def movie (fetch : String → FetchOutcome) (gen : String → Option ℤ)
    (titles : Option (List String)) (episode season : ℕ) (mediaType : String)
    (year : ℤ) : Except Unit (List TorrentResult) :=
  single fetch gen titles episode season mediaType year

end V2

/-! ## Auxiliary predicates and lemmas -/

/-- Is the value a string? -/
def isStr : JSValue → Bool
  | .str _ => true
  | _ => false

/-- Is the value an array? -/
def isArr : JSValue → Bool
  | .arr _ => true
  | _ => false

lemma not_digitOrDot_of_isJsSpace {c : Char} (h : isJsSpace c = true) :
    isDigitOrDot c = false := by
  simp only [isJsSpace, Bool.or_eq_true, decide_eq_true_eq] at h
  rcases h with ((((rfl | rfl) | rfl) | rfl) | rfl) | rfl <;> decide

lemma not_asciiLetter_of_isJsSpace {c : Char} (h : isJsSpace c = true) :
    isAsciiLetter c = false := by
  simp only [isJsSpace, Bool.or_eq_true, decide_eq_true_eq] at h
  rcases h with ((((rfl | rfl) | rfl) | rfl) | rfl) | rfl <;> decide

lemma not_asciiLetter_of_digitOrDot {c : Char} (h : isDigitOrDot c = true) :
    isAsciiLetter c = false := by
  simp only [isDigitOrDot, Bool.or_eq_true, decide_eq_true_eq, Char.isDigit,
    Bool.and_eq_true, ge_iff_le] at h
  rcases h with ⟨h1, h2⟩ | rfl
  · simp only [isAsciiLetter, Bool.or_eq_false_iff, Bool.and_eq_false_iff,
      decide_eq_false_iff_not, Char.le_def, UInt32.le_def, BitVec.le_def] at *
    have e1 : ((48 : UInt32)).toBitVec.toNat = 48 := rfl
    have e2 : ((57 : UInt32)).toBitVec.toNat = 57 := rfl
    have e3 : ('A'.val).toBitVec.toNat = 65 := rfl
    have e4 : ('Z'.val).toBitVec.toNat = 90 := rfl
    have e5 : ('a'.val).toBitVec.toNat = 97 := rfl
    have e6 : ('z'.val).toBitVec.toNat = 122 := rfl
    omega
  · decide

lemma not_isJsSpace_of_asciiLetter {c : Char} (h : isAsciiLetter c = true) :
    isJsSpace c = false := by
  cases hs : isJsSpace c with
  | false => rfl
  | true => rw [not_asciiLetter_of_isJsSpace hs] at h; cases h

lemma not_digitOrDot_of_asciiLetter {c : Char} (h : isAsciiLetter c = true) :
    isDigitOrDot c = false := by
  cases hs : isDigitOrDot c with
  | false => rfl
  | true => rw [not_asciiLetter_of_digitOrDot hs] at h; cases h

lemma not_isJsSpace_of_digitOrDot {c : Char} (h : isDigitOrDot c = true) :
    isJsSpace c = false := by
  cases hs : isJsSpace c with
  | false => rfl
  | true => rw [not_digitOrDot_of_isJsSpace hs] at h; cases h

/-- `takeWhile`/`dropWhile` split an append exactly at the boundary when the
left part satisfies the predicate throughout and the right part opens with a
failing element. -/
lemma takeWhile_dropWhile_append {p : Char → Bool} {xs ys : List Char}
    (h1 : ∀ x ∈ xs, p x = true) (h2 : ∀ c t, ys = c :: t → p c = false) :
    (xs ++ ys).takeWhile p = xs ∧ (xs ++ ys).dropWhile p = ys := by
  induction xs with
  | nil =>
    cases ys with
    | nil => simp
    | cons c t => simp [List.takeWhile_cons, List.dropWhile_cons, h2 c t rfl]
  | cons x xs ih =>
    have hx := h1 x (by simp)
    have ih2 := ih (fun a ha => h1 a (by simp [ha]))
    simp [List.takeWhile_cons, List.dropWhile_cons, hx, ih2.1, ih2.2]

/-- The head of a `dropWhile` result fails the predicate. -/
lemma dropWhile_head_false {p : Char → Bool} :
    ∀ {l : List Char} {c : Char} {t : List Char}, l.dropWhile p = c :: t → p c = false := by
  intro l
  induction l with
  | nil => intro c t h; cases h
  | cons x xs ih =>
    intro c t h
    by_cases hx : p x = true
    · exact ih (by simpa [List.dropWhile_cons, hx] using h)
    · rw [List.dropWhile_cons, if_neg (by simp_all)] at h
      cases h
      simp_all

/-- Membership survives trimming. -/
lemma mem_of_mem_jsTrimList {c : Char} {l : List Char} (h : c ∈ jsTrimList l) : c ∈ l := by
  unfold jsTrimList at h
  rw [List.mem_reverse] at h
  have h2 := List.Sublist.mem h (List.dropWhile_sublist _)
  rw [List.mem_reverse] at h2
  exact List.Sublist.mem h2 (List.dropWhile_sublist _)

/-- `filterMap` keeps the length when every element maps to `some`. -/
lemma length_filterMap_of_all_isSome {α β : Type} {f : α → Option β} :
    ∀ {l : List α}, (∀ a ∈ l, (f a).isSome) → (l.filterMap f).length = l.length := by
  intro l
  induction l with
  | nil => intro; rfl
  | cons x xs ih =>
    intro h
    have hx := h x (by simp)
    obtain ⟨b, hb⟩ := Option.isSome_iff_exists.mp hx
    rw [List.filterMap_cons, hb]
    simp [ih (fun a ha => h a (by simp [ha]))]

/-- The survivors-then-truncate shape of the normalizer. -/
lemma normalize_eq_filterMap (now : ℤ) (cy : ℕ) (tp g : String → Option ℤ)
    (l : List JSValue) :
    normalize now cy tp g l = (l.filterMap (buildItem now cy tp g)).take 30 := by
  unfold normalize
  rw [List.filterMap_map]
  rfl

/-! ## Claim theorems -/

/-- C1: per-item isolation in index.js `_search`: a raw item whose record
construction throws is dropped from the output (no placeholder), processing
continues with the remaining items, and the surviving records keep their
relative order — `normalize` is the 30-truncation of `filterMap buildItem`;
in particular, of three items where only the second fails, the output is the
records of items 1 and 3 in that order. -/
theorem c1_per_item_isolation (now : ℤ) (cy : ℕ) (tp g : String → Option ℤ)
    (a1 a2 a3 : JSValue) (r1 r3 : TorrentResult)
    (h1 : buildItem now cy tp g a1 = some r1)
    (h2 : buildItem now cy tp g a2 = none)
    (h3 : buildItem now cy tp g a3 = some r3) :
    normalize now cy tp g [a1, a2, a3] = [r1, r3]
    ∧ ∀ l : List JSValue,
        normalize now cy tp g l = (l.filterMap (buildItem now cy tp g)).take 30 := by
  refine ⟨?_, fun l => normalize_eq_filterMap now cy tp g l⟩
  rw [normalize_eq_filterMap]
  simp [List.filterMap_cons, h1, h2, h3]

/-- Witness for C1: the middle item carries a numeric `Magnet`, so
`item.Magnet?.match` throws and only the records of items 1 and 3 survive. -/
theorem c1_per_item_isolation_witness :
    normalize 0 2026 (fun _ => none) (fun _ => none)
      [.obj [("Name", .str "a")], .obj [("Magnet", .num 5)], .obj [("Name", .str "c")]]
      = [⟨.str "a", .undefined, "", .fin 0, .fin 0, 0, some 0, 0, "medium", "alt"⟩,
         ⟨.str "c", .undefined, "", .fin 0, .fin 0, 0, some 0, 0, "medium", "alt"⟩] :=
  (c1_per_item_isolation 0 2026 (fun _ => none) (fun _ => none)
    (.obj [("Name", .str "a")]) (.obj [("Magnet", .num 5)]) (.obj [("Name", .str "c")])
    ⟨.str "a", .undefined, "", .fin 0, .fin 0, 0, some 0, 0, "medium", "alt"⟩
    ⟨.str "c", .undefined, "", .fin 0, .fin 0, 0, some 0, 0, "medium", "alt"⟩
    rfl rfl rfl).1

/-- C7: the normalizer returns at most 30 records, and exactly the first 30
surviving records in response order; 40 items that all build give exactly 30
records. -/
theorem c7_truncation (now : ℤ) (cy : ℕ) (tp g : String → Option ℤ) :
    (∀ l : List JSValue, (normalize now cy tp g l).length ≤ 30
        ∧ normalize now cy tp g l = (l.filterMap (buildItem now cy tp g)).take 30)
    ∧ ∀ l : List JSValue, (∀ a ∈ l, (buildItem now cy tp g a).isSome) → l.length = 40 →
        (normalize now cy tp g l).length = 30 := by
  constructor
  · intro l
    refine ⟨?_, normalize_eq_filterMap now cy tp g l⟩
    rw [normalize_eq_filterMap]
    exact List.length_take_le _ _
  · intro l hall h40
    rw [normalize_eq_filterMap, List.length_take, length_filterMap_of_all_isSome hall, h40]
    decide

/-- Witness for C7: 40 well-formed raw items normalize to exactly 30
records. -/
theorem c7_truncation_witness :
    (normalize 0 2026 (fun _ => none) (fun _ => none)
      (List.replicate 40 (.obj []))).length = 30 :=
  (c7_truncation 0 2026 (fun _ => none) (fun _ => none)).2 _
    (fun a ha => by rw [List.eq_of_mem_replicate ha]; rfl) (by rfl)

/-- C8: an empty or absent title list makes `single` — and `batch`/`movie`,
which delegate to it — return `[]`, and the result is the same for every
possible fetch collaborator, i.e. the network is never consulted. -/
theorem c8_empty_titles (fetch : String → FetchOutcome) (now : ℤ) (cy : ℕ)
    (tp g : String → Option ℤ) (episode : ℕ) :
    single fetch now cy tp g (some []) episode = .ok []
    ∧ single fetch now cy tp g none episode = .ok []
    ∧ batch fetch now cy tp g (some []) episode = .ok []
    ∧ batch fetch now cy tp g none episode = .ok []
    ∧ movie fetch now cy tp g (some []) episode = .ok []
    ∧ movie fetch now cy tp g none episode = .ok [] :=
  ⟨rfl, rfl, rfl, rfl, rfl, rfl⟩

/-- C2 is false as stated: a network exception propagates out of `single` in
both variants instead of yielding `[]`, and in index.js even a non-ok
response propagates. -/
theorem c2_counterexample :
    single (fun _ => .netErr) 0 2026 (fun _ => none) (fun _ => none) (some ["naruto"]) 0
      = .error ()
    ∧ V2.single (fun _ => .netErr) (fun _ => none) (some ["naruto"]) 0 0 "anime" 0
      = .error ()
    ∧ single (fun _ => .resp false (.ok (.arr []))) 0 2026 (fun _ => none) (fun _ => none)
        (some ["naruto"]) 0 = .error () :=
  ⟨rfl, rfl, rfl⟩

/-- C2 (amended): part_000 recovers a non-ok status and a valid-JSON
non-array body into `[]`, but a rejected `fetch` or an unparseable body
propagates as an error in both variants, and in index.js every transport
failure (non-ok status, network exception, JSON failure, non-array body)
propagates to the caller. -/
theorem c2_transport_policy (now : ℤ) (cy : ℕ) (tp g g2 : String → Option ℤ)
    (t : String) (ts : List String) (eps seas : ℕ) (mt : String) (yr : ℤ)
    (body : Except Unit JSValue) (v : JSValue) (hv : isArr v = false) :
    V2.single (fun _ => .resp false body) g (some (t :: ts)) eps seas mt yr = .ok []
    ∧ V2.single (fun _ => .resp true (.ok v)) g (some (t :: ts)) eps seas mt yr = .ok []
    ∧ V2.single (fun _ => .netErr) g (some (t :: ts)) eps seas mt yr = .error ()
    ∧ V2.single (fun _ => .resp true (.error ())) g (some (t :: ts)) eps seas mt yr
        = .error ()
    ∧ single (fun _ => .netErr) now cy tp g2 (some (t :: ts)) eps = .error ()
    ∧ single (fun _ => .resp false body) now cy tp g2 (some (t :: ts)) eps = .error ()
    ∧ single (fun _ => .resp true (.error ())) now cy tp g2 (some (t :: ts)) eps
        = .error ()
    ∧ single (fun _ => .resp true (.ok v)) now cy tp g2 (some (t :: ts)) eps
        = .error () := by
  refine ⟨rfl, ?_, rfl, rfl, rfl, rfl, rfl, ?_⟩
  · cases v <;> first | rfl | (exact absurd hv (by simp [isArr]))
  · cases v <;> first | rfl | (exact absurd hv (by simp [isArr]))

/-- Witness for C2 (amended): instantiated at a concrete request and a
concrete non-array body. -/
theorem c2_transport_policy_witness :
    V2.single (fun _ => .resp true (.ok (.obj []))) (fun _ => none)
      (some ["naruto"]) 0 0 "anime" 0 = .ok [] :=
  (c2_transport_policy 0 2026 (fun _ => none) (fun _ => none) (fun _ => none)
    "naruto" [] 0 0 "anime" 0 (.ok (.obj [])) (.obj []) rfl).2.1

/-- C9 is false as stated: the code replaces punctuation by spaces and trims
the ends but never collapses interior whitespace runs, so the spec's own
example sanitizes to a string with a double space. -/
theorem c9_counterexample :
    sanitizeTitle "Attack on Titan: Final Season!" = "Attack on Titan  Final Season"
    ∧ sanitizeTitle "Attack on Titan: Final Season!" ≠ "Attack on Titan Final Season" :=
  ⟨rfl, by decide⟩

/-- Every list splits as its `dropWhile` preceded by the dropped prefix. -/
lemma dropWhile_suffix_decomp (p : Char → Bool) :
    ∀ l : List Char, ∃ u, l = u ++ l.dropWhile p := by
  intro l
  induction l with
  | nil => exact ⟨[], rfl⟩
  | cons c t ih =>
    by_cases hc : p c = true
    · obtain ⟨u, hu⟩ := ih
      refine ⟨c :: u, ?_⟩
      rw [List.dropWhile_cons, if_pos hc]
      simpa using hu
    · refine ⟨[], ?_⟩
      rw [List.dropWhile_cons, if_neg hc]
      rfl

/-- The first character of a trimmed list is not whitespace. -/
lemma jsTrimList_head_not_space {l : List Char} {c : Char} {rest : List Char}
    (h : jsTrimList l = c :: rest) : isJsSpace c = false := by
  unfold jsTrimList at h
  obtain ⟨u, hu⟩ := dropWhile_suffix_decomp isJsSpace (l.dropWhile isJsSpace).reverse
  have hpre : l.dropWhile isJsSpace
      = ((l.dropWhile isJsSpace).reverse.dropWhile isJsSpace).reverse ++ u.reverse := by
    have := congrArg List.reverse hu
    simpa [List.reverse_append] using this
  rw [h] at hpre
  exact dropWhile_head_false (l := l) hpre

/-- The last character of a trimmed list is not whitespace. -/
lemma jsTrimList_last_not_space {l : List Char} {c : Char} {rest : List Char}
    (h : (jsTrimList l).reverse = c :: rest) : isJsSpace c = false := by
  unfold jsTrimList at h
  rw [List.reverse_reverse] at h
  exact dropWhile_head_false h

/-- Trimming a list whose first and last characters are not whitespace is a
no-op. -/
lemma jsTrimList_noop {l : List Char}
    (h1 : ∀ c t, l = c :: t → isJsSpace c = false)
    (h2 : ∀ c t, l.reverse = c :: t → isJsSpace c = false) :
    jsTrimList l = l := by
  have hd : l.dropWhile isJsSpace = l := by
    cases hl : l with
    | nil => rfl
    | cons c t => rw [List.dropWhile_cons, if_neg (by simp [h1 c t hl])]
  have hdr : l.reverse.dropWhile isJsSpace = l.reverse := by
    cases hr : l.reverse with
    | nil => rfl
    | cons c t => rw [List.dropWhile_cons, if_neg (by simp [h2 c t hr])]
  unfold jsTrimList
  rw [hd, hdr, List.reverse_reverse]

/-- C9 (amended): sanitization replaces every character that is not a word
character, whitespace, or hyphen by a single space (length-preserving before
the trim), trims leading and trailing whitespace, and does NOT collapse
interior whitespace runs — the spec's example keeps its double space. -/
theorem c9_sanitize :
    (∀ t : String, ∀ c ∈ (sanitizeTitle t).data, keepChar c = true)
    ∧ (∀ t : String, (t.data.map (fun c => if keepChar c then c else ' ')).length
        = t.data.length)
    ∧ (∀ (t : String) (c : Char) (rest : List Char),
        (sanitizeTitle t).data = c :: rest → isJsSpace c = false)
    ∧ (∀ (t : String) (c : Char) (rest : List Char),
        (sanitizeTitle t).data.reverse = c :: rest → isJsSpace c = false)
    ∧ sanitizeTitle "Attack on Titan: Final Season!" = "Attack on Titan  Final Season" := by
  refine ⟨?_, ?_, ?_, ?_, rfl⟩
  · intro t c hc
    have hmem := mem_of_mem_jsTrimList (l := t.data.map (fun c => if keepChar c then c else ' '))
      (by simpa [sanitizeTitle, jsTrim] using hc)
    obtain ⟨a, _, ha⟩ := List.mem_map.mp hmem
    by_cases hk : keepChar a = true
    · rw [if_pos hk] at ha; rw [← ha]; exact hk
    · rw [if_neg hk] at ha; rw [← ha]; decide
  · intro t; simp
  · intro t c rest h
    exact jsTrimList_head_not_space (by simpa [sanitizeTitle, jsTrim] using h)
  · intro t c rest h
    exact jsTrimList_last_not_space (by simpa [sanitizeTitle, jsTrim] using h)

/-- Witness for C9 (amended): the character-class invariant evaluated on the
spec's example title. -/
theorem c9_sanitize_witness : keepChar 'A' = true :=
  c9_sanitize.1 "Attack on Titan: Final Season!" 'A' (by decide)

/-- C4: the query is the sanitized title plus the media-type-specific
suffix (part_000 `_search` lines 46-66): `movie` appends the year when
present (truthy); `tv` appends `" S{ss}E{ee}"` when both season and episode
are present, defaults to the literal `S01` prefix — equal to
`"S" ++ padTwo 1` — when only the episode is present, and appends nothing
when neither is; every other mediaType (including unrecognized ones) gets
the anime behaviour: the zero-padded episode when present. -/
theorem c4_query_building (t : String) (e s : ℕ) (y : ℤ) (hy : y ≠ 0) :
    V2.buildQuery t e s "movie" y = sanitizeTitle t ++ " " ++ toString y
    ∧ V2.buildQuery t e s "movie" 0 = sanitizeTitle t
    ∧ V2.buildQuery t (e + 1) (s + 1) "tv" y
        = sanitizeTitle t ++ " S" ++ padTwo (s + 1) ++ "E" ++ padTwo (e + 1)
    ∧ V2.buildQuery t (e + 1) 0 "tv" y = sanitizeTitle t ++ " S01E" ++ padTwo (e + 1)
    ∧ V2.buildQuery t 0 0 "tv" y = sanitizeTitle t
    ∧ V2.buildQuery t (e + 1) s "anime" y = sanitizeTitle t ++ " " ++ padTwo (e + 1)
    ∧ V2.buildQuery t 0 s "anime" y = sanitizeTitle t
    ∧ (∀ mt : String, mt ≠ "movie" → mt ≠ "tv" →
        V2.buildQuery t e s mt y = V2.buildQuery t e s "anime" y)
    ∧ ("S" ++ padTwo 1 : String) = "S01" := by
  refine ⟨?_, ?_, ?_, ?_, ?_, ?_, ?_, ?_, rfl⟩
  · simp [V2.buildQuery, hy]
  · simp [V2.buildQuery]
  · simp [V2.buildQuery]
  · simp [V2.buildQuery]
  · simp [V2.buildQuery]
  · simp [V2.buildQuery]
  · simp [V2.buildQuery]
  · intro mt h1 h2
    simp [V2.buildQuery, h1, h2]

/-- Witness for C4: a movie query with a present year. -/
theorem c4_query_building_witness :
    V2.buildQuery "Foo" 0 0 "movie" 1999 = sanitizeTitle "Foo" ++ " " ++ toString (1999 : ℤ) :=
  (c4_query_building "Foo" 0 0 1999 (by decide)).1

/-- A rational floor of a nonnegative value is nonnegative. -/
lemma rat_floor_nonneg {q : ℚ} (h : 0 ≤ q) : 0 ≤ q.floor :=
  Rat.le_floor.mpr (by exact_mod_cast h)

/-- The numeric value recovered by the capture-group `parseFloat` is
nonnegative. -/
lemma parseFloatCapture_nonneg {cs : List Char} {q : ℚ}
    (h : parseFloatCapture cs = some q) : 0 ≤ q := by
  unfold parseFloatCapture at h
  dsimp only at h
  split at h
  · split at h
    · cases h
    · rw [Option.some_inj] at h
      rw [← h]
      positivity
  · split at h
    · cases h
    · rw [Option.some_inj] at h
      rw [← h]
      positivity

set_option maxHeartbeats 1000000 in
/-- Every multiplier the `units` lookup (with its `|| 1` default) can
deliver as a number is nonnegative. -/
lemma unitsGet_qv_nonneg {u : String} {m : ℚ}
    (h : (unitsGet u).getD (.qv 1) = .qv m) : 0 ≤ m := by
  unfold unitsGet at h
  split_ifs at h
  all_goals simp only [Option.getD_some, Option.getD_none] at h
  all_goals first
    | exact (UnitsVal.noConfusion h)
    | (injection h with h2; rw [← h2]; norm_num)

/-- `_parseSize` never returns a negative number. -/
lemma parseSize_nonneg {v : JSValue} {z : ℤ} (h : parseSize v = some z) : 0 ≤ z := by
  cases v
  case str s =>
    simp only [parseSize] at h
    split at h
    · injection h with h2; omega
    · split at h
      · injection h with h2; omega
      · split at h
        · injection h with h2; omega
        · split at h
          · rw [Option.some_inj] at h
            rw [← h]
            exact rat_floor_nonneg (mul_nonneg (parseFloatCapture_nonneg (by assumption))
              (unitsGet_qv_nonneg (by assumption)))
          · cases h
  all_goals (simp only [parseSize] at h; injection h with h2; omega)

/-- C3 is false as stated: a raw item with no `Name`/`Magnet` and a truthy
non-numeric `Seeders` still produces a record, whose `title` and `link` are
`undefined`, whose `seeders` is `NaN`, and — for a `Size` naming an
inherited `Object.prototype` method as its unit — whose `size` is `NaN`. -/
theorem c3_counterexample :
    (buildItem 0 2026 (fun _ => none) (fun _ => none)
        (.obj [("Seeders", .str "abc"), ("Size", .str "5 toString")])).map
      (fun r => (r.title, r.link, r.seeders, r.size))
      = some (.undefined, .undefined, .nan, none) := rfl

/-- C3 (amended): every produced record does carry well-typed constants and
parse results — `downloads = 0`, `accuracy = "medium"`, `type = "alt"`, and
a `size` that is nonnegative whenever it is a number — but `title` and
`link` are the raw `Name` and `Magnet` values passed through unchanged (so
they are `undefined` when absent), and `seeders`/`leechers`/`size` can be
`NaN`. -/
theorem c3_field_invariants (now : ℤ) (cy : ℕ) (tp g : String → Option ℤ)
    (item : JSValue) (r : TorrentResult)
    (h : buildItem now cy tp g item = some r) :
    r.downloads = 0 ∧ r.accuracy = "medium" ∧ r.type = "alt"
    ∧ (∀ z, r.size = some z → 0 ≤ z)
    ∧ getField item "Name" = some r.title
    ∧ getField item "Magnet" = some r.link := by
  unfold buildItem at h
  simp only [Option.bind_eq_bind, Option.bind_eq_some] at h
  obtain ⟨name, hname, magnet, hmagnet, hsh, hhash, s1, hs1, l1, hl1, sz, hsz, d1, hd1, hr⟩ := h
  rw [Option.some_inj] at hr
  subst hr
  exact ⟨rfl, rfl, rfl, fun z hz => parseSize_nonneg hz, hname, hmagnet⟩

/-- Witness for C3 (amended): instantiated on the empty raw item. -/
theorem c3_field_invariants_witness :
    (⟨.undefined, .undefined, "", .fin 0, .fin 0, 0, some 0, 0, "medium", "alt"⟩ :
        TorrentResult).downloads = 0
    ∧ (⟨.undefined, .undefined, "", .fin 0, .fin 0, 0, some 0, 0, "medium", "alt"⟩ :
        TorrentResult).accuracy = "medium"
    ∧ (⟨.undefined, .undefined, "", .fin 0, .fin 0, 0, some 0, 0, "medium", "alt"⟩ :
        TorrentResult).type = "alt"
    ∧ (∀ z, (⟨.undefined, .undefined, "", .fin 0, .fin 0, 0, some 0, 0, "medium", "alt"⟩ :
        TorrentResult).size = some z → 0 ≤ z)
    ∧ getField (.obj []) "Name"
        = some (⟨.undefined, .undefined, "", .fin 0, .fin 0, 0, some 0, 0, "medium", "alt"⟩ :
          TorrentResult).title
    ∧ getField (.obj []) "Magnet"
        = some (⟨.undefined, .undefined, "", .fin 0, .fin 0, 0, some 0, 0, "medium", "alt"⟩ :
          TorrentResult).link :=
  c3_field_invariants 0 2026 (fun _ => none) (fun _ => none) (.obj [])
    ⟨.undefined, .undefined, "", .fin 0, .fin 0, 0, some 0, 0, "medium", "alt"⟩ rfl

/-- Under the unique class-disjoint decomposition, trimming is a no-op and
the size regex splits exactly at the number/whitespace/unit boundaries. -/
lemma sizeMatch_decomp {numCs wsCs unitCs : List Char}
    (hnum : numCs ≠ [] ∧ ∀ c ∈ numCs, isDigitOrDot c = true)
    (hws : ∀ c ∈ wsCs, isJsSpace c = true)
    (hunit : unitCs ≠ [] ∧ ∀ c ∈ unitCs, isAsciiLetter c = true) :
    jsTrimList (numCs ++ wsCs ++ unitCs) = numCs ++ wsCs ++ unitCs
    ∧ sizeMatch (numCs ++ wsCs ++ unitCs) = some (numCs, unitCs) := by
  obtain ⟨hn0, hnd⟩ := hnum
  obtain ⟨hu0, hul⟩ := hunit
  have hsplit1 : ((numCs ++ wsCs ++ unitCs).takeWhile isDigitOrDot = numCs)
      ∧ ((numCs ++ wsCs ++ unitCs).dropWhile isDigitOrDot = wsCs ++ unitCs) := by
    rw [List.append_assoc]
    refine takeWhile_dropWhile_append hnd ?_
    intro c t hct
    cases wsCs with
    | nil =>
      simp only [List.nil_append] at hct
      exact not_digitOrDot_of_asciiLetter (hul c (by rw [hct]; simp))
    | cons w ws =>
      rw [List.cons_append] at hct
      injection hct with hc ht
      exact not_digitOrDot_of_isJsSpace (hws c (by rw [hc]; simp))
  have hsplit2 : ((wsCs ++ unitCs).dropWhile isJsSpace = unitCs) := by
    refine (takeWhile_dropWhile_append hws ?_).2
    intro c t hct
    exact not_isJsSpace_of_asciiLetter (hul c (by rw [hct]; simp))
  constructor
  · -- trimming is a no-op: the ends are a digit/dot and a letter
    apply jsTrimList_noop
    · intro c t hct
      cases numCs with
      | nil => exact absurd rfl hn0
      | cons n ns =>
        rw [List.append_assoc, List.cons_append] at hct
        injection hct with hc ht
        exact not_isJsSpace_of_digitOrDot (hnd c (by rw [hc]; simp))
    · intro c t hct
      rw [List.append_assoc, List.reverse_append, List.reverse_append] at hct
      cases hu : unitCs.reverse with
      | nil => rw [List.reverse_eq_nil_iff] at hu; exact absurd hu hu0
      | cons x xs =>
        rw [hu, List.cons_append] at hct
        injection hct with hc ht
        refine not_isJsSpace_of_asciiLetter (hul c ?_)
        rw [← List.mem_reverse, hu, ← hc]
        simp
  · have hcond : (!numCs.isEmpty && !unitCs.isEmpty && unitCs.all isAsciiLetter) = true := by
      cases numCs with
      | nil => exact absurd rfl hn0
      | cons a as =>
        cases unitCs with
        | nil => exact absurd rfl hu0
        | cons b bs =>
          simp only [List.isEmpty_cons, Bool.not_false, Bool.true_and, Bool.and_eq_true,
            List.all_eq_true]
          exact hul
    unfold sizeMatch
    dsimp only
    rw [hsplit1.1, hsplit1.2, hsplit2, if_pos hcond]

/-- C5 is false as stated: for the unit string `toString` — an
`Object.prototype` method name, hence a truthy inherited property of the
`units` object literal — the multiplier is the function value, the
multiplication yields `NaN`, and `_parseSize` returns `NaN` rather than the
raw numeric value `5`. -/
theorem c5_counterexample :
    parseSize (.str "5 toString") = none
    ∧ parseSize (.str "5 toString") ≠ some 5 :=
  ⟨rfl, by decide⟩

/-- C5 (amended): on `<number><whitespace><unit>` strings `_parseSize`
returns `floor(value * multiplier)` with the documented binary/decimal
multipliers, returns the raw floored value for a unit missing from the
lookup — except for the seven all-letter `Object.prototype` method names,
whose inherited function value makes the result `NaN` — and returns `0` on
malformed or non-string input; it never throws (it is total). -/
theorem c5_parse_size (numCs wsCs unitCs : List Char) (q : ℚ)
    (hnum : numCs ≠ [] ∧ ∀ c ∈ numCs, isDigitOrDot c = true)
    (hws : ∀ c ∈ wsCs, isJsSpace c = true)
    (hunit : unitCs ≠ [] ∧ ∀ c ∈ unitCs, isAsciiLetter c = true)
    (hq : parseFloatCapture numCs = some q) :
    (∀ m : ℚ, unitsGet ⟨unitCs⟩ = some (.qv m) →
        parseSize (.str ⟨numCs ++ wsCs ++ unitCs⟩) = some ((q * m).floor))
    ∧ (unitsGet ⟨unitCs⟩ = some .protoFn →
        parseSize (.str ⟨numCs ++ wsCs ++ unitCs⟩) = none)
    ∧ (unitsGet ⟨unitCs⟩ = none →
        parseSize (.str ⟨numCs ++ wsCs ++ unitCs⟩) = some q.floor)
    ∧ (∀ v : JSValue, isStr v = false → parseSize v = some 0)
    ∧ (∀ s : String, s ≠ "" → sizeMatch (jsTrimList s.data) = none →
        parseSize (.str s) = some 0)
    ∧ unitsGet "B" = some (.qv 1) ∧ unitsGet "KiB" = some (.qv 1024)
    ∧ unitsGet "MiB" = some (.qv (1024 ^ 2)) ∧ unitsGet "GiB" = some (.qv (1024 ^ 3))
    ∧ unitsGet "TiB" = some (.qv (1024 ^ 4)) ∧ unitsGet "KB" = some (.qv 1000)
    ∧ unitsGet "MB" = some (.qv (1000 ^ 2)) ∧ unitsGet "GB" = some (.qv (1000 ^ 3))
    ∧ unitsGet "TB" = some (.qv (1000 ^ 4)) ∧ unitsGet "toString" = some .protoFn
    ∧ unitsGet "XB" = none := by
  have hdec := sizeMatch_decomp hnum hws hunit
  have hne : (⟨numCs ++ wsCs ++ unitCs⟩ : String) ≠ "" := by
    intro hcon
    have : numCs ++ wsCs ++ unitCs = ([] : List Char) := congrArg String.data hcon
    cases numCs with
    | nil => exact absurd rfl hnum.1
    | cons a b => simp at this
  have hdata : (⟨numCs ++ wsCs ++ unitCs⟩ : String).data = numCs ++ wsCs ++ unitCs := rfl
  refine ⟨?_, ?_, ?_, ?_, ?_, rfl, rfl, rfl, rfl, rfl, rfl, rfl, rfl, rfl, rfl, rfl⟩
  · intro m hm
    simp only [parseSize, if_neg hne, hdata, hdec.1, hdec.2, hq, hm, Option.getD_some]
  · intro hm
    simp only [parseSize, if_neg hne, hdata, hdec.1, hdec.2, hq, hm, Option.getD_some]
  · intro hm
    simp only [parseSize, if_neg hne, hdata, hdec.1, hdec.2, hq, hm, Option.getD_none]
    rw [mul_one]
  · intro v hv
    cases v <;> simp [parseSize, isStr] at hv ⊢
  · intro s hs hm
    simp only [parseSize, if_neg hs, hm]

/-- Witness for C5 (amended): `"1.85 GiB"` parses to the floor of the exact
product `1.85 * 1024 ^ 3`. -/
theorem c5_parse_size_witness :
    parseSize (.str ⟨"1.85".data ++ " ".data ++ "GiB".data⟩)
      = some ((((37 : ℚ) / 20) * 1024 ^ 3).floor) :=
  (c5_parse_size "1.85".data " ".data "GiB".data ((37 : ℚ) / 20)
    ⟨by decide, by decide⟩ (by decide) ⟨by decide, by decide⟩
    (by
      have h : parseFloatCapture "1.85".data
          = some ((digitsVal ['1'] : ℚ) + (digitsVal ['8', '5'] : ℚ) / (10 : ℚ) ^ 2) := rfl
      have d1 : digitsVal ['1'] = 1 := rfl
      have d2 : digitsVal ['8', '5'] = 85 := rfl
      rw [h, d1, d2]
      norm_num)).1
    (1024 ^ 3) rfl

/-- Under the decomposition hypotheses the date regex splits
`MM-DD<whitespace><rest>` exactly at the maximal whitespace run. -/
lemma dateShape_decomp {m1 m2 d1 d2 : Char} {wsCs restCs : List Char}
    (hdig : (m1.isDigit && m2.isDigit && d1.isDigit && d2.isDigit) = true)
    (hws : wsCs ≠ [] ∧ ∀ c ∈ wsCs, isJsSpace c = true)
    (hrest : restCs ≠ [] ∧ (∀ c t, restCs = c :: t → isJsSpace c = false)
        ∧ (∀ c ∈ restCs, isLineTerm c = false)) :
    dateShape (m1 :: m2 :: '-' :: d1 :: d2 :: (wsCs ++ restCs))
      = some ([m1, m2], [d1, d2], restCs) := by
  obtain ⟨hws0, hwsall⟩ := hws
  obtain ⟨hr0, hrhead, hrterm⟩ := hrest
  have hsplit := takeWhile_dropWhile_append (p := isJsSpace) hwsall hrhead
  have hany : restCs.any isLineTerm = false := by
    rw [List.any_eq_false]
    intro c hc
    simp [hrterm c hc]
  have h1 : wsCs.isEmpty = false := by
    cases wsCs with
    | nil => exact absurd rfl hws0
    | cons a as => rfl
  have h2 : restCs.isEmpty = false := by
    cases restCs with
    | nil => exact absurd rfl hr0
    | cons a as => rfl
  rw [show dateShape (m1 :: m2 :: '-' :: d1 :: d2 :: (wsCs ++ restCs))
      = (if (m1.isDigit && m2.isDigit && d1.isDigit && d2.isDigit) = true then
          (if (!((wsCs ++ restCs).takeWhile isJsSpace).isEmpty
              && !((wsCs ++ restCs).dropWhile isJsSpace).isEmpty
              && !((wsCs ++ restCs).dropWhile isJsSpace).any isLineTerm) = true then
            some ([m1, m2], [d1, d2], (wsCs ++ restCs).dropWhile isJsSpace)
          else none)
        else none) from rfl]
  rw [if_pos hdig, hsplit.1, hsplit.2, if_pos (by rw [h1, h2, hany]; rfl)]

/-- C6: `_parseDate` treats an exactly-4-digit remainder after `MM-DD` as a
year and yields the UTC midnight of that civil date when it is a valid ISO
date (falling back to the generic parse otherwise); any other remainder is
handed to the host parser as a time-of-day in the current calendar year; a
string matching neither shape goes to the generic parse; and an absent,
non-string, or everywhere-unparseable input yields the current timestamp.
The function is total: it never throws. -/
theorem c6_parse_date (now : ℤ) (cy : ℕ) (tparse gen : String → Option ℤ)
    (m1 m2 d1 d2 : Char) (wsCs restCs : List Char) (s : String)
    (hs : s.data = m1 :: m2 :: '-' :: d1 :: d2 :: (wsCs ++ restCs))
    (hdig : (m1.isDigit && m2.isDigit && d1.isDigit && d2.isDigit) = true)
    (hws : wsCs ≠ [] ∧ ∀ c ∈ wsCs, isJsSpace c = true)
    (hrest : restCs ≠ [] ∧ (∀ c t, restCs = c :: t → isJsSpace c = false)
        ∧ (∀ c ∈ restCs, isLineTerm c = false)
        ∧ (∀ c t, restCs.reverse = c :: t → isJsSpace c = false)) :
    ((restCs.length = 4 ∧ restCs.all Char.isDigit) →
      (∀ tv : ℤ,
        isoDateOnly (digitsVal restCs) (digitsVal [m1, m2]) (digitsVal [d1, d2]) = some tv →
        parseDate now cy tparse gen (.str s) = tv)
      ∧ (isoDateOnly (digitsVal restCs) (digitsVal [m1, m2]) (digitsVal [d1, d2]) = none →
        parseDate now cy tparse gen (.str s) = (gen s).getD now))
    ∧ (¬(restCs.length = 4 ∧ restCs.all Char.isDigit) →
      parseDate now cy tparse gen (.str s)
        = (tparse (toString cy ++ "-" ++ (⟨[m1, m2]⟩ : String) ++ "-" ++ (⟨[d1, d2]⟩ : String)
            ++ "T" ++ (⟨restCs⟩ : String))).getD ((gen s).getD now))
    ∧ (∀ v : JSValue, isStr v = false → parseDate now cy tparse gen v = now)
    ∧ parseDate now cy tparse gen (.str "") = now
    ∧ (∀ s2 : String, s2 ≠ "" → dateShape (jsTrimList s2.data) = none →
        parseDate now cy tparse gen (.str s2) = (gen s2).getD now) := by
  obtain ⟨hr0, hrhead, hrterm, hrlast⟩ := hrest
  have hs0 : s ≠ "" := by
    intro h0
    rw [h0] at hs
    cases hs
  have htrim : jsTrimList s.data = s.data := by
    apply jsTrimList_noop
    · intro c t hct
      rw [hs] at hct
      injection hct with hc ht
      have hm1 : isDigitOrDot m1 = true := by
        simp only [Bool.and_eq_true] at hdig
        simp [isDigitOrDot, hdig.1.1.1]
      rw [← hc]
      exact not_isJsSpace_of_digitOrDot hm1
    · intro c t hct
      rw [hs] at hct
      simp only [List.reverse_cons, List.reverse_append, List.append_assoc] at hct
      cases hrr : restCs.reverse with
      | nil => rw [List.reverse_eq_nil_iff] at hrr; exact absurd hrr hr0
      | cons c2 t2 =>
        rw [hrr, List.cons_append] at hct
        injection hct with hc ht
        rw [← hc]
        exact hrlast c2 t2 hrr
  have hshape : dateShape (jsTrimList s.data) = some ([m1, m2], [d1, d2], restCs) := by
    rw [htrim, hs]
    exact dateShape_decomp hdig hws ⟨hr0, hrhead, hrterm⟩
  refine ⟨?_, ?_, ?_, rfl, ?_⟩
  · intro h4
    constructor
    · intro tv htv
      simp only [parseDate, if_neg hs0, hshape, if_pos h4, htv]
    · intro htv
      simp only [parseDate, if_neg hs0, hshape, if_pos h4, htv]
  · intro h4
    simp only [parseDate, if_neg hs0, hshape, if_neg h4]
    cases htp : tparse (toString cy ++ "-" ++ (⟨[m1, m2]⟩ : String) ++ "-"
        ++ (⟨[d1, d2]⟩ : String) ++ "T" ++ (⟨restCs⟩ : String)) with
    | none => rfl
    | some tv => rfl
  · intro v hv
    cases v <;> simp [parseDate, isStr] at hv ⊢
  · intro s2 hs2 hm
    simp only [parseDate, if_neg hs2, hm]

/-- Witness for C6: `"06-13 2012"` parses to the UTC-midnight timestamp of
June 13, 2012. -/
theorem c6_parse_date_witness :
    parseDate 999 2026 (fun _ => none) (fun _ => none) (.str "06-13 2012")
      = 1339545600000 :=
  ((c6_parse_date 999 2026 (fun _ => none) (fun _ => none) '0' '6' '1' '3'
    [' '] "2012".data "06-13 2012" rfl (by decide)
    ⟨by decide, by decide⟩
    ⟨by decide,
     fun c t hct => by injection hct with hc ht; rw [← hc]; decide,
     by decide,
     fun c t hct => by
       rw [show ("2012".data.reverse : List Char) = ['2', '1', '0', '2'] from rfl] at hct
       injection hct with hc ht
       rw [← hc]
       decide⟩).1
    (by decide)).1 1339545600000 (by decide)

/-- A successful `tihColonStart` check exposes the list's shape. -/
lemma tihColonStart_eq {l : List Char} (h : tihColonStart l = true) :
    ∃ t2, l = 't' :: 'i' :: 'h' :: ':' :: t2 := by
  unfold tihColonStart at h
  split at h
  · next t2 => exact ⟨t2, rfl⟩
  · cases h

/-- Soundness of the btih capture: a successful capture is a nonempty
hexadecimal run standing right after a literal `btih:` occurrence, with no
hexadecimal digit following it (the capture is maximal). -/
lemma btihCapture_sound :
    ∀ {cs run : List Char}, btihCapture cs = some run →
      run ≠ [] ∧ (∀ c ∈ run, isHexDigit c = true)
      ∧ ∃ pre suf, cs = pre ++ ("btih:".data ++ run ++ suf)
          ∧ (∀ c t, suf = c :: t → isHexDigit c = false) := by
  intro cs
  induction cs with
  | nil => intro run h; cases h
  | cons c rest ih =>
    intro run h
    unfold btihCapture at h
    by_cases hc : c = 'b' ∧ tihColonStart rest = true
    · rw [if_pos hc] at h
      dsimp only at h
      by_cases hrun : ((rest.drop 4).takeWhile isHexDigit).isEmpty = true
      · rw [if_pos hrun] at h
        obtain ⟨hne, hhex, pre, suf, hdecomp, hsuf⟩ := ih h
        exact ⟨hne, hhex, c :: pre, suf, by rw [hdecomp]; rfl, hsuf⟩
      · rw [if_neg hrun] at h
        rw [Option.some_inj] at h
        obtain ⟨t2, ht2⟩ := tihColonStart_eq hc.2
        have hdrop : rest.drop 4 = t2 := by rw [ht2]; rfl
        refine ⟨?_, ?_, [], t2.dropWhile isHexDigit, ?_, ?_⟩
        · rw [← h]
          intro h0
          rw [h0] at hrun
          exact hrun rfl
        · intro x hx
          rw [← h, hdrop] at hx
          exact List.mem_takeWhile_imp hx
        · rw [hc.1, ht2, List.nil_append, ← h, hdrop]
          rw [show ("btih:".data : List Char) = ['b', 't', 'i', 'h', ':'] from rfl]
          simp only [List.cons_append, List.append_assoc]
          rw [List.takeWhile_append_dropWhile]
          rfl
        · intro x t hx
          exact dropWhile_head_false hx
    · rw [if_neg hc] at h
      obtain ⟨hne, hhex, pre, suf, hdecomp, hsuf⟩ := ih h
      exact ⟨hne, hhex, c :: pre, suf, by rw [hdecomp]; rfl, hsuf⟩

/-- C10 is false as stated: a magnet whose `btih:` run is shorter than 40
characters yields that short run (neither 40 hex characters nor empty), and
an uppercase `BTIH:` prefix — which a case-insensitive match would accept —
yields the empty string because the literal `btih:` in the pattern is
case-sensitive. -/
theorem c10_counterexample :
    (buildItem 0 2026 (fun _ => none) (fun _ => none)
        (.obj [("Magnet", .str "magnet:?xt=urn:btih:abc")])).map (fun r => r.hash)
      = some "abc"
    ∧ ("abc" : String).length ≠ 40
    ∧ (buildItem 0 2026 (fun _ => none) (fun _ => none)
        (.obj [("Magnet",
          .str "magnet:?xt=urn:BTIH:ABCDEFABCDEFABCDEFABCDEFABCDEFABCDEFABCD")])).map
        (fun r => r.hash)
      = some "" :=
  ⟨rfl, by decide, rfl⟩

/-- C10 (amended): for every produced record the hash is either the empty
string (magnet absent or no case-sensitive `btih:` match) or the first
capture of the pattern — a nonempty maximal run of hexadecimal digits of
either case standing right after a literal `btih:` in the magnet string —
whatever its length (40 characters are not guaranteed). -/
theorem c10_hash (now : ℤ) (cy : ℕ) (tp g : String → Option ℤ)
    (item : JSValue) (r : TorrentResult) (h : buildItem now cy tp g item = some r) :
    r.hash = ""
    ∨ (r.hash ≠ "" ∧ (∀ c ∈ r.hash.data, isHexDigit c = true)
       ∧ ∃ (s : String) (pre suf : List Char), r.link = .str s
           ∧ s.data = pre ++ ("btih:".data ++ r.hash.data ++ suf)
           ∧ (∀ c t, suf = c :: t → isHexDigit c = false)) := by
  unfold buildItem at h
  simp only [Option.bind_eq_bind, Option.bind_eq_some] at h
  obtain ⟨name, hname, magnet, hmagnet, hsh, hhash, s1, hs1, l1, hl1, sz, hsz, d1, hd1, hr⟩ := h
  rw [Option.some_inj] at hr
  subst hr
  cases magnet with
  | undefined => left; injection hhash with h2; exact h2.symm
  | null => left; injection hhash with h2; exact h2.symm
  | str s =>
    simp only [magnetHash, Option.some_inj] at hhash
    cases hb : btihCapture s.data with
    | none =>
      left
      rw [hb] at hhash
      exact hhash.symm
    | some run =>
      right
      rw [hb] at hhash
      simp only [Option.map_some', Option.getD_some] at hhash
      obtain ⟨hne, hhex, pre, suf, hdecomp, hsuf⟩ := btihCapture_sound hb
      refine ⟨?_, ?_, s, pre, suf, rfl, ?_, hsuf⟩
      · rw [← hhash]
        intro h0
        have : run = [] := congrArg String.data h0
        exact hne this
      · intro c hcmem
        rw [← hhash] at hcmem
        exact hhex c hcmem
      · rw [← hhash]
        exact hdecomp
  | bool b => cases hhash
  | num q => cases hhash
  | arr l => cases hhash
  | obj fs => cases hhash

/-- Witness for C10 (amended): instantiated on a magnet with a short
`btih:` run. -/
theorem c10_hash_witness :
    (⟨.undefined, .str "xbtih:ff", "ff", .fin 0, .fin 0, 0, some 0, 0, "medium", "alt"⟩ :
        TorrentResult).hash = ""
    ∨ ((⟨.undefined, .str "xbtih:ff", "ff", .fin 0, .fin 0, 0, some 0, 0, "medium", "alt"⟩ :
        TorrentResult).hash ≠ ""
       ∧ (∀ c ∈ (⟨.undefined, .str "xbtih:ff", "ff", .fin 0, .fin 0, 0, some 0, 0, "medium",
          "alt"⟩ : TorrentResult).hash.data, isHexDigit c = true)
       ∧ ∃ (s : String) (pre suf : List Char),
           (⟨.undefined, .str "xbtih:ff", "ff", .fin 0, .fin 0, 0, some 0, 0, "medium", "alt"⟩ :
              TorrentResult).link = .str s
           ∧ s.data = pre ++ ("btih:".data
              ++ (⟨.undefined, .str "xbtih:ff", "ff", .fin 0, .fin 0, 0, some 0, 0, "medium",
                "alt"⟩ : TorrentResult).hash.data ++ suf)
           ∧ (∀ c t, suf = c :: t → isHexDigit c = false)) :=
  c10_hash 0 2026 (fun _ => none) (fun _ => none) (.obj [("Magnet", .str "xbtih:ff")])
    ⟨.undefined, .str "xbtih:ff", "ff", .fin 0, .fin 0, 0, some 0, 0, "medium", "alt"⟩ rfl

end Seadex
